import Mathlib

/-!
Shallow embedding of the session-freshness / archive-compaction core of the
repository.

Conventions of the embedding:
* Instants are `Int` milliseconds since the Unix epoch (JS `number` timestamps).
* A timezone is a fixed offset from UTC in minutes (`Int`); the ambient system
  timezone (`Intl.DateTimeFormat().resolvedOptions().timeZone` in the source)
  is threaded explicitly as a `sysOff` parameter.
* JS strings are Lean `String`s; `String.length`/`take` stand for the JS
  `length`/`slice` code-unit operations.
* The filesystem is a total map from paths to file contents, `""` standing for
  an absent file; `fs.appendFile` creates-or-appends, like the source's
  `fs.appendFile`.
-/

namespace OpenClaw

/-- Milliseconds per day. -/
def msPerDay : Int := 86400000

/-- Civil calendar date (year, month, day) from a count of days since
1970-01-01, the standard days-from-civil inverse used by date libraries.
This models what `Intl.DateTimeFormat` part extraction produces for the
Gregorian calendar. -/
def civilFromDays (z : Int) : Int × Int × Int :=
  let z' := z + 719468
  let era : Int := z' / 146097
  let doe : Int := z' - era * 146097
  let yoe : Int := (doe - doe / 1460 + doe / 36524 - doe / 146096) / 365
  let y : Int := yoe + era * 400
  let doy : Int := doe - (365 * yoe + yoe / 4 - yoe / 100)
  let mp : Int := (5 * doy + 2) / 153
  let d : Int := doy - (153 * mp + 2) / 5 + 1
  let m : Int := mp + (if mp < 10 then 3 else -9)
  (y + (if m ≤ 2 then 1 else 0), m, d)

/-- Zero-pad a number to two digits, as the `2-digit` option of
`Intl.DateTimeFormat` does. -/
def pad2 (n : Int) : String :=
  if n < 10 then "0" ++ toString n else toString n

/-- `formatDateStamp(nowMs, timezone?)` from `archive-messages.ts`:
format a date as `YYYY-MM-DD` in the specified timezone, defaulting to the
system timezone `sysOff`. -/
def formatDateStamp (sysOff : Int) (nowMs : Int) (timezone : Option Int) : String :=
  let off := timezone.getD sysOff
  let localMs := nowMs + off * 60000
  let c := civilFromDays (localMs / msPerDay)
  toString c.1 ++ "-" ++ pad2 c.2.1 ++ "-" ++ pad2 c.2.2

/-- `formatTimeStamp(nowMs, timezone?)` from `archive-messages.ts`:
format a timestamp as `HH:MM:SS` (24-hour, zero-padded) in the specified
timezone, defaulting to the system timezone `sysOff`. -/
def formatTimeStamp (sysOff : Int) (nowMs : Int) (timezone : Option Int) : String :=
  let off := timezone.getD sysOff
  let localMs := nowMs + off * 60000
  pad2 (localMs / 3600000 % 24) ++ ":" ++
    pad2 (localMs / 60000 % 60) ++ ":" ++
    pad2 (localMs / 1000 % 60)

/-- The fixed archive marker `ARCHIVE_MARKER` from `archive-messages.ts`. -/
def ARCHIVE_MARKER : String := "[ARCHIVED_CONVERSATION]"

/-- A content block of a message: `text`, `thinking` and `toolCall` blocks as
in `archive-messages.ts`; `other` stands for any block of an unrecognized
type (skipped by all extraction branches). -/
inductive ContentBlock where
  | text (t : String)
  | thinking (t : String)
  | toolCall (toolName : String)
  | other
deriving DecidableEq, Repr

/-- The content of a user message: either one unstructured string or a list
of content blocks (the two shapes `extractMessageText` handles). -/
inductive UserContent where
  | str (s : String)
  | blocks (bs : List ContentBlock)
deriving DecidableEq, Repr

/-- An `AgentMessage` as consumed by `archive-messages.ts`: a role tag with
role-specific content; tool-result messages optionally carry a `toolName`;
`otherRole` stands for a message of any further role (extracts to `""`). -/
inductive AgentMessage where
  | user (content : UserContent)
  | assistant (blocks : List ContentBlock)
  | toolResult (toolName : Option String) (blocks : List ContentBlock)
  | otherRole
deriving DecidableEq, Repr

/-- The `parts` accumulation of the user-role branch of `extractMessageText`:
push the text of every `text`-typed block, skip everything else. -/
def userParts : List ContentBlock → List String
  | [] => []
  | .text t :: bs => t :: userParts bs
  | _ :: bs => userParts bs

/-- The `parts` accumulation of the assistant-role branch of
`extractMessageText`: `text` blocks verbatim, `thinking` blocks as a
bracketed summary truncated to 200 characters, `toolCall` blocks as a
bracketed tool-name marker. -/
def assistantParts : List ContentBlock → List String
  | [] => []
  | .text t :: bs => t :: assistantParts bs
  | .thinking t :: bs =>
      ("[thinking: " ++ t.take 200 ++ "...]") :: assistantParts bs
  | .toolCall name :: bs => ("[tool: " ++ name ++ "]") :: assistantParts bs
  | .other :: bs => assistantParts bs

/-- The `parts` accumulation of the tool-result branch of
`extractMessageText`: `text` blocks, each truncated to 500 characters with a
`... [truncated N chars]` marker when longer. -/
def toolResultParts : List ContentBlock → List String
  | [] => []
  | .text t :: bs =>
      (if t.length > 500 then
        t.take 500 ++ "... [truncated " ++ toString (t.length - 500) ++ " chars]"
      else t) :: toolResultParts bs
  | _ :: bs => toolResultParts bs

/-- `extractMessageText(message)` from `archive-messages.ts`. -/
def extractMessageText : AgentMessage → String
  | .user (.str s) => s
  | .user (.blocks bs) => String.intercalate "\n" (userParts bs)
  | .assistant bs => String.intercalate "\n" (assistantParts bs)
  | .toolResult toolName bs =>
      "[" ++ toolName.getD "tool" ++ " result]: " ++
        String.intercalate "\n" (toolResultParts bs)
  | .otherRole => ""

/-- JS `String.prototype.trim`: strip whitespace from both ends. -/
def jsTrim (s : String) : String :=
  ⟨((s.data.dropWhile Char.isWhitespace).reverse.dropWhile
      Char.isWhitespace).reverse⟩

/-- The role label computed in the loop of `formatMessagesAsMarkdown`. -/
def roleLabel : AgentMessage → String
  | .user _ => "👤 User"
  | .assistant _ => "🤖 Assistant"
  | _ => "🔧 Tool"

/-- The lines the loop body of `formatMessagesAsMarkdown` pushes for one
message: a role subheading, a blank, the extracted text and a blank when the
trimmed text is truthy (non-empty), nothing otherwise. -/
def messageLines (m : AgentMessage) : List String :=
  if jsTrim (extractMessageText m) = "" then []
  else ["### " ++ roleLabel m, "", extractMessageText m, ""]

/-- The initial `lines` array of `formatMessagesAsMarkdown` (header block). -/
def headerLines (messages : List AgentMessage) (sessionKey : Option String)
    (dateStamp timeStamp : String) : List String :=
  ["",
   "## " ++ ARCHIVE_MARKER,
   "**Archived at:** " ++ dateStamp ++ " " ++ timeStamp,
   match sessionKey with
   | some k => if k = "" then "" else "**Session:** " ++ k
   | none => "",
   "**Messages:** " ++ toString messages.length,
   "",
   "---",
   ""]

/-- The full `lines` array of `formatMessagesAsMarkdown`: the header, then
the per-message loop accumulation, then a trailing rule and blank. -/
def formatLines (sysOff : Int) (messages : List AgentMessage)
    (sessionKey : Option String) (timestamp : Int) : List String :=
  let dateStamp := formatDateStamp sysOff timestamp none
  let timeStamp := formatTimeStamp sysOff timestamp none
  (messages.foldl (fun acc m => acc ++ messageLines m)
      (headerLines messages sessionKey dateStamp timeStamp)) ++ ["---", ""]

/-- `formatMessagesAsMarkdown(messages, sessionKey?, timestamp)` from
`archive-messages.ts` (the `timestamp ?? Date.now()` default is resolved by
its only caller, which always passes `nowMs`).  Note the source computes the
date and time stamps here with NO timezone argument, hence in the system
timezone. -/
def formatMessagesAsMarkdown (sysOff : Int) (messages : List AgentMessage)
    (sessionKey : Option String) (timestamp : Int) : String :=
  String.intercalate "\n" (formatLines sysOff messages sessionKey timestamp)

/-- The filesystem state: contents of each path, `""` meaning absent. -/
def FS : Type := String → String

/-- `fs.appendFile(path, content)`: create the file if absent, append
otherwise; never truncates or rewrites other paths. -/
def FS.appendFile (fs : FS) (p content : String) : FS :=
  fun q => if q = p then fs q ++ content else fs q

/-- The parameter object of `archiveMessagesToMemory`. -/
structure ArchiveParams where
  messages : List AgentMessage
  workspaceDir : String
  sessionKey : Option String := none
  timestamp : Option Int := none
  timezone : Option Int := none
deriving DecidableEq, Repr

/-- The result object of `archiveMessagesToMemory`. -/
structure ArchiveResult where
  archivePath : String
  messageCount : Nat
deriving DecidableEq, Repr

/-- `archiveMessagesToMemory(params)` from `archive-messages.ts` as a state
transformer on the filesystem.  `sysOff` is the ambient system timezone and
`clockNow` the ambient `Date.now()` used when no `timestamp` is supplied.
The date stamp of the archive path honours `params.timezone`; the block
content comes from `formatMessagesAsMarkdown`, which does not. -/
def archiveMessagesToMemory (sysOff clockNow : Int) (params : ArchiveParams)
    (fs : FS) : FS × ArchiveResult :=
  let nowMs := params.timestamp.getD clockNow
  let dateStamp := formatDateStamp sysOff nowMs params.timezone
  let memoryDir := params.workspaceDir ++ "/memory"
  let archivePath := memoryDir ++ "/" ++ dateStamp ++ ".md"
  let content := formatMessagesAsMarkdown sysOff params.messages
    params.sessionKey nowMs
  (fs.appendFile archivePath content,
   { archivePath := archivePath, messageCount := params.messages.length })

/-- The parameter object of `createDropPlaceholder`. -/
structure DropParams where
  messageCount : Nat
  archivePath : Option String := none
  timestamp : Option Int := none
deriving DecidableEq, Repr

/-- The `lines` array built by `createDropPlaceholder`. -/
def dropLines (sysOff clockNow : Int) (params : DropParams) : List String :=
  let nowMs := params.timestamp.getD clockNow
  let dateStamp := formatDateStamp sysOff nowMs none
  let timeStamp := formatTimeStamp sysOff nowMs none
  (["[Earlier conversation archived at " ++ dateStamp ++ " " ++ timeStamp ++ "]",
    toString params.messageCount ++ " messages moved to memory for RAG retrieval."]
   ++ (match params.archivePath with
       | some p => if p = "" then [] else ["Archive: " ++ p]
       | none => []))
  ++ ["Use memory_search to retrieve past context if needed."]

/-- `createDropPlaceholder(params)` from `archive-messages.ts`. -/
def createDropPlaceholder (sysOff clockNow : Int) (params : DropParams) :
    String :=
  String.intercalate "\n" (dropLines sysOff clockNow params)

/-! ## Session reset policies

The implementation file `reset.ts` is not part of the sources; only its test
file is.  The definitions below are therefore modelled from the spec (§3,
§4.1, §4.2) and checked for consistency with the test file's expectations. -/

/-- The `mode` discriminator of a session reset policy. -/
inductive ResetMode where
  | never
  | daily
  | idle
deriving DecidableEq, Repr

/-- Modelled from the spec: `SessionResetPolicy` (§3), a policy record with a
`mode` tag; `atHour` and `idleMinutes` are optional fields that may be
supplied alongside any mode (the test file passes `idleMinutes` to a
`never`-mode policy). -/
structure SessionResetPolicy where
  mode : ResetMode
  atHour : Option Int := none
  idleMinutes : Option Int := none
deriving DecidableEq, Repr

/-- Modelled from the spec: `FreshnessResult` (§3): `fresh`, with optional
`dailyResetAt` (daily mode) and `idleExpiresAt` (idle mode). -/
structure FreshnessResult where
  fresh : Bool
  dailyResetAt : Option Int := none
  idleExpiresAt : Option Int := none
deriving DecidableEq, Repr

/-- Modelled from the spec (§4.2, daily mode): the most recent instant at
`atHour:00:00` local time that is ≤ `now`, for the timezone offset `off`. -/
def dailyBoundary (off atHour now : Int) : Int :=
  let localNow := now + off * 60000
  let dayStart := localNow / msPerDay * msPerDay
  let cand := dayStart + atHour * 3600000
  (if cand ≤ localNow then cand else cand - msPerDay) - off * 60000

/-- Modelled from the spec: `evaluateSessionFreshness` (§4.2), missing from
the sources (only its test file is present).  `never`: always fresh, both
optional fields absent.  `daily`: fresh iff `updatedAt` is at or after the
most recent boundary at `atHour` that is ≤ `now`; the boundary is reported
as `dailyResetAt` regardless.  `idle`: `idleExpiresAt = updatedAt +
idleMinutes * 60000`, fresh iff `now < idleExpiresAt`.  Absent `atHour`
falls back to the default hour 4; absent `idleMinutes` to 0 (the spec
leaves malformed idle parameters undefined). -/
def evaluateSessionFreshness (sysOff : Int) (updatedAt now : Int)
    (policy : SessionResetPolicy) : FreshnessResult :=
  match policy.mode with
  | .never => { fresh := true }
  | .daily =>
      let boundary := dailyBoundary sysOff (policy.atHour.getD 4) now
      { fresh := decide (boundary ≤ updatedAt), dailyResetAt := some boundary }
  | .idle =>
      let idleExpiresAt := updatedAt + policy.idleMinutes.getD 0 * 60000
      { fresh := decide (now < idleExpiresAt), idleExpiresAt := some idleExpiresAt }

/-- Modelled from the spec: the session configuration consumed by
`resolveSessionResetPolicy` (§4.1): an optional global `reset` policy and an
optional per-session-type map. -/
structure SessionConfig where
  reset : Option SessionResetPolicy := none
  resetByType : Option (List (String × SessionResetPolicy)) := none
deriving DecidableEq, Repr

/-- Modelled from the spec: the built-in default policy
`{mode: "daily", atHour: 4}` (§4.1). -/
def defaultResetPolicy : SessionResetPolicy :=
  { mode := .daily, atHour := some 4 }

/-- Modelled from the spec: `resolveSessionResetPolicy` (§4.1), missing from
the sources (only its test file is present).  First present wins:
`resetOverride` → `sessionCfg.resetByType[resetType]` → `sessionCfg.reset` →
the built-in default; absent fields are never an error. -/
def resolveSessionResetPolicy (sessionCfg : SessionConfig) (resetType : String)
    (resetOverride : Option SessionResetPolicy := none) : SessionResetPolicy :=
  resetOverride.getD
    ((((sessionCfg.resetByType.getD []).lookup resetType).orElse
        (fun _ => sessionCfg.reset)).getD defaultResetPolicy)

/-- The texts of the `text`-typed blocks of a content list. -/
def textBlocks (bs : List ContentBlock) : List String :=
  bs.filterMap fun b => match b with | .text t => some t | _ => none

/-- The rendering of one tool-result text block as the spec describes it:
blocks of at most 500 characters verbatim, longer blocks as their first 500
characters followed by a truncation marker giving the number of characters
cut. -/
def toolChunkRendered (t : String) : String :=
  if t.length > 500 then
    t.take 500 ++ "... [truncated " ++ toString (t.length - 500) ++ " chars]"
  else t

/-- `s` contains `sub` as a substring. -/
def containsStr (s sub : String) : Prop := ∃ pre post, s = pre ++ sub ++ post

/-! ## Helper lemmas -/

theorem toolResultParts_eq_map (bs : List ContentBlock) :
    toolResultParts bs = (textBlocks bs).map toolChunkRendered := by
  induction bs with
  | nil => rfl
  | cons b bs ih =>
      cases b <;>
        simp [toolResultParts, textBlocks, toolChunkRendered, ih,
          List.filterMap_cons]

theorem foldl_append_messageLines (l : List AgentMessage)
    (init : List String) :
    l.foldl (fun acc m => acc ++ messageLines m) init =
      init ++ (l.map messageLines).flatten := by
  induction l generalizing init with
  | nil => simp
  | cons m ms ih => simp [ih]

theorem mem_dropWhile_of_not {p : Char → Bool} {c : Char}
    (hp : p c = false) :
    ∀ {l : List Char}, c ∈ l → c ∈ l.dropWhile p := by
  intro l
  induction l with
  | nil => intro h; cases h
  | cons x xs ih =>
      intro hc
      rw [List.dropWhile_cons]
      by_cases hx : p x = true
      · simp only [hx, if_true]
        rcases List.mem_cons.mp hc with h | h
        · rw [h] at hp
          rw [hp] at hx
          exact (Bool.false_ne_true hx).elim
        · exact ih h
      · simp only [hx, if_false]
        exact hc

theorem jsTrim_ne_empty {s : String} {c : Char} (hc : c ∈ s.data)
    (hw : c.isWhitespace = false) : jsTrim s ≠ "" := by
  intro h
  have hdata : (jsTrim s).data = [] := by rw [h]
  have h1 : c ∈ s.data.dropWhile Char.isWhitespace :=
    mem_dropWhile_of_not hw hc
  have h2 : c ∈ (s.data.dropWhile Char.isWhitespace).reverse :=
    List.mem_reverse.mpr h1
  have h3 : c ∈ ((s.data.dropWhile Char.isWhitespace).reverse.dropWhile
      Char.isWhitespace) := mem_dropWhile_of_not hw h2
  have h4 : c ∈ ((s.data.dropWhile Char.isWhitespace).reverse.dropWhile
      Char.isWhitespace).reverse := List.mem_reverse.mpr h3
  rw [show (jsTrim s).data =
      ((s.data.dropWhile Char.isWhitespace).reverse.dropWhile
        Char.isWhitespace).reverse from rfl] at hdata
  exact List.ne_nil_of_mem h4 hdata

theorem intercalate_go_append (s : String) :
    ∀ (l : List String) (x y : String),
      String.intercalate.go (x ++ y) s l =
        x ++ String.intercalate.go y s l := by
  intro l
  induction l with
  | nil => intro x y; rfl
  | cons b bs ih =>
      intro x y
      show String.intercalate.go (x ++ y ++ s ++ b) s bs =
        x ++ String.intercalate.go (y ++ s ++ b) s bs
      rw [show x ++ y ++ s ++ b = x ++ (y ++ s ++ b) by
        simp [String.append_assoc]]
      exact ih x (y ++ s ++ b)

theorem intercalate_cons_cons (s a b : String) (l : List String) :
    String.intercalate s (a :: b :: l) =
      a ++ s ++ String.intercalate s (b :: l) := by
  show String.intercalate.go ((a ++ s) ++ b) s l = _
  rw [intercalate_go_append s l (a ++ s) b]
  rfl

set_option maxHeartbeats 1000000 in
theorem civilFromDays_bounds (z : Int) (h0 : 0 ≤ z) (h1 : z ≤ 2932896) :
    1970 ≤ (civilFromDays z).1 ∧ (civilFromDays z).1 ≤ 9999 ∧
    1 ≤ (civilFromDays z).2.1 ∧ (civilFromDays z).2.1 ≤ 12 ∧
    1 ≤ (civilFromDays z).2.2 ∧ (civilFromDays z).2.2 ≤ 31 := by
  simp only [civilFromDays]
  omega

/-! ## Theorems -/

/-- C4: in `never` mode the evaluator returns `fresh = true` with both
`dailyResetAt` and `idleExpiresAt` absent, regardless of how old `updatedAt`
is and regardless of any `idleMinutes` supplied alongside the policy. -/
theorem evaluateSessionFreshness_never (sysOff updatedAt now : Int)
    (policy : SessionResetPolicy) (h : policy.mode = .never) :
    evaluateSessionFreshness sysOff updatedAt now policy =
      { fresh := true, dailyResetAt := none, idleExpiresAt := none } := by
  simp [evaluateSessionFreshness, h]

/-- Witness for C4: a two-week-old session with `idleMinutes = 30` supplied
alongside a `never`-mode policy is still fresh, with both fields absent. -/
theorem evaluateSessionFreshness_never_witness :
    evaluateSessionFreshness 0 0 (14 * 86400000)
      { mode := .never, atHour := some 4, idleMinutes := some 30 } =
      { fresh := true, dailyResetAt := none, idleExpiresAt := none } :=
  evaluateSessionFreshness_never 0 0 (14 * 86400000)
    { mode := .never, atHour := some 4, idleMinutes := some 30 } rfl

/-- C3: in `idle` mode the evaluator returns `idleExpiresAt = updatedAt +
idleMinutes * 60000` and `fresh = true` iff `now < idleExpiresAt`; at exactly
`now = idleExpiresAt` the session is stale. -/
theorem evaluateSessionFreshness_idle (sysOff updatedAt now : Int)
    (policy : SessionResetPolicy) (im : Int) (h : policy.mode = .idle)
    (him : policy.idleMinutes = some im) :
    evaluateSessionFreshness sysOff updatedAt now policy =
      { fresh := decide (now < updatedAt + im * 60000),
        dailyResetAt := none,
        idleExpiresAt := some (updatedAt + im * 60000) } ∧
    ((evaluateSessionFreshness sysOff updatedAt now policy).fresh = true ↔
      now < updatedAt + im * 60000) ∧
    (now = updatedAt + im * 60000 →
      (evaluateSessionFreshness sysOff updatedAt now policy).fresh = false) := by
  refine ⟨by simp [evaluateSessionFreshness, h, him], ?_, ?_⟩
  · simp [evaluateSessionFreshness, h, him]
  · intro heq
    simp [evaluateSessionFreshness, h, him, heq]

/-- Witness for C3: with `idleMinutes = 30`, a session evaluated exactly at
`updatedAt + 30 * 60000` is stale and `idleExpiresAt` is that instant. -/
theorem evaluateSessionFreshness_idle_witness :
    (evaluateSessionFreshness 0 0 1800000
      { mode := .idle, atHour := some 4, idleMinutes := some 30 }).fresh
        = false ∧
    (evaluateSessionFreshness 0 0 1800000
      { mode := .idle, atHour := some 4, idleMinutes := some 30 }).idleExpiresAt
        = some 1800000 := by
  have h := evaluateSessionFreshness_idle 0 0 1800000
    { mode := .idle, atHour := some 4, idleMinutes := some 30 } 30 rfl rfl
  exact ⟨h.2.2 (by decide), by rw [h.1]; decide⟩

/-- C2: in `daily` mode the evaluator reports as `dailyResetAt` the most
recent instant at `atHour:00:00` (in the ambient timezone) that is ≤ `now`,
regardless of freshness, and `fresh = true` iff `updatedAt` is at or after
that boundary. -/
theorem evaluateSessionFreshness_daily (sysOff updatedAt now : Int)
    (policy : SessionResetPolicy) (a : Int) (h : policy.mode = .daily)
    (ha : policy.atHour = some a) (ha0 : 0 ≤ a) (ha23 : a ≤ 23) :
    evaluateSessionFreshness sysOff updatedAt now policy =
      { fresh := decide (dailyBoundary sysOff a now ≤ updatedAt),
        dailyResetAt := some (dailyBoundary sysOff a now),
        idleExpiresAt := none } ∧
    ((evaluateSessionFreshness sysOff updatedAt now policy).fresh = true ↔
      dailyBoundary sysOff a now ≤ updatedAt) ∧
    dailyBoundary sysOff a now ≤ now ∧
    (dailyBoundary sysOff a now + sysOff * 60000) % msPerDay = a * 3600000 ∧
    (∀ t : Int, (t + sysOff * 60000) % msPerDay = a * 3600000 → t ≤ now →
      t ≤ dailyBoundary sysOff a now) := by
  refine ⟨by simp [evaluateSessionFreshness, h, ha], ?_, ?_, ?_, ?_⟩
  · simp [evaluateSessionFreshness, h, ha]
  · simp only [dailyBoundary, msPerDay]
    split <;> omega
  · simp only [dailyBoundary, msPerDay]
    split <;> omega
  · intro t h1 h2
    simp only [dailyBoundary, msPerDay] at *
    split <;> omega

/-- Witness for C2: with `atHour = 4` (UTC), a session last updated at 03:00
the previous day evaluated at noon today is stale, the boundary being 04:00
today; a session updated one second before now is fresh. -/
theorem evaluateSessionFreshness_daily_witness :
    (evaluateSessionFreshness 0 (3 * 3600000) (86400000 + 12 * 3600000)
      { mode := .daily, atHour := some 4 }).fresh = false ∧
    (evaluateSessionFreshness 0 (3 * 3600000) (86400000 + 12 * 3600000)
      { mode := .daily, atHour := some 4 }).dailyResetAt =
        some (86400000 + 4 * 3600000) ∧
    (evaluateSessionFreshness 0 (86400000 + 12 * 3600000 - 1000)
      (86400000 + 12 * 3600000) { mode := .daily, atHour := some 4 }).fresh
        = true := by
  have h1 := evaluateSessionFreshness_daily 0 (3 * 3600000)
    (86400000 + 12 * 3600000) { mode := .daily, atHour := some 4 } 4
    rfl rfl (by decide) (by decide)
  have h2 := evaluateSessionFreshness_daily 0 (86400000 + 12 * 3600000 - 1000)
    (86400000 + 12 * 3600000) { mode := .daily, atHour := some 4 } 4
    rfl rfl (by decide) (by decide)
  refine ⟨?_, ?_, ?_⟩
  · rw [h1.1]; decide
  · rw [h1.1]; decide
  · rw [h2.1]; decide

/-- C5: policy resolution picks the first present of `resetOverride`, the
per-type entry, the global `reset`, and the built-in default
`{mode: daily, atHour: 4}`; absent fields are never an error. -/
theorem resolveSessionResetPolicy_precedence (cfg : SessionConfig)
    (resetType : String) (o : Option SessionResetPolicy) :
    (∀ pol, o = some pol →
      resolveSessionResetPolicy cfg resetType o = pol) ∧
    (∀ pol, o = none → (cfg.resetByType.getD []).lookup resetType = some pol →
      resolveSessionResetPolicy cfg resetType o = pol) ∧
    (∀ g, o = none → (cfg.resetByType.getD []).lookup resetType = none →
      cfg.reset = some g → resolveSessionResetPolicy cfg resetType o = g) ∧
    (o = none → (cfg.resetByType.getD []).lookup resetType = none →
      cfg.reset = none →
      resolveSessionResetPolicy cfg resetType o = defaultResetPolicy) := by
  refine ⟨?_, ?_, ?_, ?_⟩
  · intro pol hpol
    simp [resolveSessionResetPolicy, hpol]
  · intro pol ho hlk
    simp [resolveSessionResetPolicy, ho, hlk, Option.orElse]
  · intro g ho hlk hg
    simp [resolveSessionResetPolicy, ho, hlk, hg, Option.orElse]
  · intro ho hlk hg
    simp [resolveSessionResetPolicy, ho, hlk, hg, Option.orElse]

/-- Witness for C5: an explicit `never` override beats a global `daily`
policy; with an empty configuration and no override, the built-in default
`{mode: daily, atHour: 4}` results. -/
theorem resolveSessionResetPolicy_precedence_witness :
    resolveSessionResetPolicy { reset := some { mode := .daily } } "direct"
      (some { mode := .never }) = { mode := .never } ∧
    resolveSessionResetPolicy {} "direct" none =
      { mode := .daily, atHour := some 4 } := by
  have h1 := resolveSessionResetPolicy_precedence
    { reset := some { mode := .daily } } "direct" (some { mode := .never })
  have h2 := resolveSessionResetPolicy_precedence {} "direct" none
  exact ⟨h1.1 _ rfl, h2.2.2.2 rfl rfl rfl⟩

/-- C6: `archiveMessagesToMemory` returns `messageCount` equal to the length
of the input array; the rendered block's `Messages: N` header line uses that
same length; and a message whose extracted text is empty or whitespace-only
contributes no lines to the block (no empty subheading), while every other
message contributes its role subheading and text. -/
theorem archiveMessagesToMemory_messageCount (sysOff clockNow : Int)
    (p : ArchiveParams) (fs : FS) :
    (archiveMessagesToMemory sysOff clockNow p fs).2.messageCount =
      p.messages.length ∧
    ("**Messages:** " ++ toString p.messages.length) ∈
      formatLines sysOff p.messages p.sessionKey (p.timestamp.getD clockNow) ∧
    formatLines sysOff p.messages p.sessionKey (p.timestamp.getD clockNow) =
      headerLines p.messages p.sessionKey
        (formatDateStamp sysOff (p.timestamp.getD clockNow) none)
        (formatTimeStamp sysOff (p.timestamp.getD clockNow) none)
      ++ (p.messages.map messageLines).flatten ++ ["---", ""] ∧
    (∀ m, jsTrim (extractMessageText m) = "" → messageLines m = []) ∧
    (∀ m, jsTrim (extractMessageText m) ≠ "" →
      messageLines m = ["### " ++ roleLabel m, "", extractMessageText m, ""]) := by
  refine ⟨rfl, ?_, ?_, ?_, ?_⟩
  · simp only [formatLines, foldl_append_messageLines]
    apply List.mem_append_left
    apply List.mem_append_left
    simp [headerLines]
  · simp only [formatLines, foldl_append_messageLines, List.append_assoc]
  · intro m hm
    unfold messageLines
    rw [if_pos hm]
  · intro m hm
    unfold messageLines
    rw [if_neg hm]

/-- Witness for C6: a two-message batch whose second message extracts only
whitespace still reports `messageCount = 2` and a `Messages: 2` header line,
while the whitespace-only message contributes no lines. -/
theorem archiveMessagesToMemory_messageCount_witness :
    (archiveMessagesToMemory 0 0
      { messages := [.user (.str "hi"), .user (.str "  ")],
        workspaceDir := "/ws" } (fun _ => "")).2.messageCount = 2 ∧
    ("**Messages:** " ++ toString 2) ∈ formatLines 0
      [.user (.str "hi"), .user (.str "  ")] none 0 ∧
    messageLines (.user (.str "  ")) = [] ∧
    messageLines (.user (.str "hi")) = ["### 👤 User", "", "hi", ""] := by
  have h := archiveMessagesToMemory_messageCount 0 0
    { messages := [.user (.str "hi"), .user (.str "  ")],
      workspaceDir := "/ws" } (fun _ => "")
  exact ⟨h.1, h.2.1, h.2.2.2.1 _ (by decide), h.2.2.2.2 _ (by decide)⟩

/-- C7: a tool-result message extracts to the prefix
`[<toolName> result]: ` (tool name defaulting to `tool`) followed by its
text blocks joined by newlines, where a block of at most 500 characters is
rendered verbatim and a longer block as its first 500 characters followed by
`... [truncated N chars]` with `N` the original length minus 500. -/
theorem extractMessageText_toolResult (name : Option String)
    (bs : List ContentBlock) :
    extractMessageText (.toolResult name bs) =
      "[" ++ name.getD "tool" ++ " result]: " ++
        String.intercalate "\n" ((textBlocks bs).map toolChunkRendered) ∧
    (∀ t : String, t.length ≤ 500 → toolChunkRendered t = t) ∧
    (∀ t : String, 500 < t.length →
      toolChunkRendered t = t.take 500 ++ "... [truncated " ++
        toString (t.length - 500) ++ " chars]") := by
  refine ⟨?_, ?_, ?_⟩
  · simp [extractMessageText, toolResultParts_eq_map]
  · intro t ht
    simp only [toolChunkRendered, if_neg (by omega : ¬ t.length > 500)]
  · intro t ht
    simp only [toolChunkRendered, if_pos (by omega : t.length > 500)]

set_option maxRecDepth 4000 in
/-- Witness for C7: a 501-character block is rendered as its first 500
characters plus a `... [truncated 1 chars]` marker; a short block is
rendered verbatim; a tool-result message without a tool name extracts with
the `[tool result]: ` prefix. -/
theorem extractMessageText_toolResult_witness :
    toolChunkRendered ⟨List.replicate 501 'a'⟩ =
      (⟨List.replicate 501 'a'⟩ : String).take 500 ++
        "... [truncated " ++ toString 1 ++ " chars]" ∧
    toolChunkRendered "short" = "short" ∧
    extractMessageText (.toolResult none [.text "ok"]) =
      "[" ++ "tool" ++ " result]: " ++ String.intercalate "\n" ["ok"] := by
  have h := extractMessageText_toolResult none [.text "ok"]
  refine ⟨?_, h.2.1 "short" (by decide), h.1⟩
  have h501 : (500 : Nat) < (⟨List.replicate 501 'a'⟩ : String).length := by
    show (500 : Nat) < (List.replicate 501 'a').length
    rw [List.length_replicate]
    omega
  have := h.2.2 ⟨List.replicate 501 'a'⟩ h501
  rw [this]
  have hlen : (⟨List.replicate 501 'a'⟩ : String).length - 500 = 1 := by
    show (List.replicate 501 'a').length - 500 = 1
    rw [List.length_replicate]
  rw [hlen]

/-- C10: a tool-result message always extracts text beginning with the
non-empty `[<toolName> result]: ` prefix, hence is never whitespace-only and
is always rendered with its role subheading, even with zero content blocks —
whereas user and assistant messages with no text extract to the empty string
and are omitted. -/
theorem toolResult_always_rendered (name : Option String)
    (bs : List ContentBlock) :
    jsTrim (extractMessageText (.toolResult name bs)) ≠ "" ∧
    messageLines (.toolResult name bs) =
      ["### 🔧 Tool", "", extractMessageText (.toolResult name bs), ""] ∧
    (∃ rest, extractMessageText (.toolResult name bs) =
      "[" ++ name.getD "tool" ++ " result]: " ++ rest) ∧
    extractMessageText (.user (.blocks [])) = "" ∧
    messageLines (.user (.blocks [])) = [] ∧
    extractMessageText (.assistant []) = "" ∧
    messageLines (.assistant []) = [] := by
  have hmem : '[' ∈ (extractMessageText (.toolResult name bs)).data := by
    simp only [extractMessageText, String.data_append]
    apply List.mem_append_left
    apply List.mem_append_left
    apply List.mem_append_left
    decide
  have hne : jsTrim (extractMessageText (.toolResult name bs)) ≠ "" :=
    jsTrim_ne_empty hmem (by decide)
  refine ⟨hne, ?_, ⟨String.intercalate "\n" (toolResultParts bs), rfl⟩,
    rfl, rfl, rfl, rfl⟩
  unfold messageLines
  rw [if_neg hne]
  rfl

/-- C8: two sequential archive calls whose date stamps agree and that share
a workspace target the same archive path; the resulting file holds the old
content followed by the first call's block followed by the second call's
block, in call order; and each call only ever appends to the filesystem —
every path's new content is its old content plus a (possibly empty)
suffix. -/
theorem archiveMessagesToMemory_appendOnly (sysOff c1 c2 : Int)
    (p1 p2 : ArchiveParams) (fs : FS)
    (hws : p1.workspaceDir = p2.workspaceDir)
    (hday : formatDateStamp sysOff (p1.timestamp.getD c1) p1.timezone =
      formatDateStamp sysOff (p2.timestamp.getD c2) p2.timezone) :
    (archiveMessagesToMemory sysOff c1 p1 fs).2.archivePath =
      (archiveMessagesToMemory sysOff c2 p2
        (archiveMessagesToMemory sysOff c1 p1 fs).1).2.archivePath ∧
    (archiveMessagesToMemory sysOff c2 p2
        (archiveMessagesToMemory sysOff c1 p1 fs).1).1
      (archiveMessagesToMemory sysOff c1 p1 fs).2.archivePath =
      fs (archiveMessagesToMemory sysOff c1 p1 fs).2.archivePath
        ++ formatMessagesAsMarkdown sysOff p1.messages p1.sessionKey
            (p1.timestamp.getD c1)
        ++ formatMessagesAsMarkdown sysOff p2.messages p2.sessionKey
            (p2.timestamp.getD c2) ∧
    (∀ q, ∃ s, (archiveMessagesToMemory sysOff c1 p1 fs).1 q = fs q ++ s) ∧
    (∀ q, ∃ s, (archiveMessagesToMemory sysOff c2 p2
        (archiveMessagesToMemory sysOff c1 p1 fs).1).1 q =
      (archiveMessagesToMemory sysOff c1 p1 fs).1 q ++ s) := by
  have hpath : (archiveMessagesToMemory sysOff c1 p1 fs).2.archivePath =
      (archiveMessagesToMemory sysOff c2 p2
        (archiveMessagesToMemory sysOff c1 p1 fs).1).2.archivePath := by
    simp only [archiveMessagesToMemory, hws, hday]
  refine ⟨hpath, ?_, ?_, ?_⟩
  · simp only [archiveMessagesToMemory, FS.appendFile,
      formatMessagesAsMarkdown] at hpath ⊢
    rw [← hpath]
    simp
  · intro q
    by_cases hq : q = (archiveMessagesToMemory sysOff c1 p1 fs).2.archivePath
    · refine ⟨formatMessagesAsMarkdown sysOff p1.messages p1.sessionKey
        (p1.timestamp.getD c1), ?_⟩
      simp only [archiveMessagesToMemory, FS.appendFile,
        formatMessagesAsMarkdown] at hq ⊢
      rw [if_pos hq]
    · refine ⟨"", ?_⟩
      simp only [archiveMessagesToMemory, FS.appendFile] at hq ⊢
      rw [if_neg hq, String.append_empty]
  · intro q
    by_cases hq : q = (archiveMessagesToMemory sysOff c2 p2
        (archiveMessagesToMemory sysOff c1 p1 fs).1).2.archivePath
    · refine ⟨formatMessagesAsMarkdown sysOff p2.messages p2.sessionKey
        (p2.timestamp.getD c2), ?_⟩
      simp only [archiveMessagesToMemory, FS.appendFile,
        formatMessagesAsMarkdown] at hq ⊢
      rw [if_pos hq]
    · refine ⟨"", ?_⟩
      simp only [archiveMessagesToMemory, FS.appendFile] at hq ⊢
      rw [if_neg hq, String.append_empty]

/-- Witness for C8: two archive calls into an empty filesystem, one hour
apart on 1970-01-01 in the same workspace, target the same path and leave
that file holding both blocks in call order. -/
theorem archiveMessagesToMemory_appendOnly_witness :
    (archiveMessagesToMemory 0 0
      { messages := [.user (.str "a")], workspaceDir := "/ws",
        timestamp := some 0 } (fun _ => "")).2.archivePath =
      (archiveMessagesToMemory 0 0
        { messages := [.user (.str "b")], workspaceDir := "/ws",
          timestamp := some 3600000 }
        (archiveMessagesToMemory 0 0
          { messages := [.user (.str "a")], workspaceDir := "/ws",
            timestamp := some 0 } (fun _ => "")).1).2.archivePath ∧
    (archiveMessagesToMemory 0 0
        { messages := [.user (.str "b")], workspaceDir := "/ws",
          timestamp := some 3600000 }
        (archiveMessagesToMemory 0 0
          { messages := [.user (.str "a")], workspaceDir := "/ws",
            timestamp := some 0 } (fun _ => "")).1).1
      (archiveMessagesToMemory 0 0
        { messages := [.user (.str "a")], workspaceDir := "/ws",
          timestamp := some 0 } (fun _ => "")).2.archivePath =
      (fun _ => "" : FS)
        (archiveMessagesToMemory 0 0
          { messages := [.user (.str "a")], workspaceDir := "/ws",
            timestamp := some 0 } (fun _ => "")).2.archivePath
        ++ formatMessagesAsMarkdown 0 [.user (.str "a")] none 0
        ++ formatMessagesAsMarkdown 0 [.user (.str "b")] none 3600000 := by
  have h := archiveMessagesToMemory_appendOnly 0 0 0
    { messages := [.user (.str "a")], workspaceDir := "/ws",
      timestamp := some 0 }
    { messages := [.user (.str "b")], workspaceDir := "/ws",
      timestamp := some 3600000 } (fun _ => "") rfl (by decide)
  exact ⟨h.1, h.2.1⟩

/-- C9: the drop placeholder always contains the literal `memory_search`,
the `YYYY-MM-DD`-shaped date stamp and the message count followed by the
word `messages`; when an archive path is supplied it appears verbatim, and
when it is absent the placeholder consists of exactly the three path-free
lines. -/
theorem createDropPlaceholder_contents (sysOff clockNow : Int)
    (params : DropParams)
    (h0 : 0 ≤ params.timestamp.getD clockNow + sysOff * 60000)
    (h1 : params.timestamp.getD clockNow + sysOff * 60000 < 253402300800000) :
    containsStr (createDropPlaceholder sysOff clockNow params)
      "memory_search" ∧
    containsStr (createDropPlaceholder sysOff clockNow params)
      (formatDateStamp sysOff (params.timestamp.getD clockNow) none) ∧
    (∃ y m d : Int,
      formatDateStamp sysOff (params.timestamp.getD clockNow) none =
        toString y ++ "-" ++ pad2 m ++ "-" ++ pad2 d ∧
      1970 ≤ y ∧ y ≤ 9999 ∧ 1 ≤ m ∧ m ≤ 12 ∧ 1 ≤ d ∧ d ≤ 31) ∧
    containsStr (createDropPlaceholder sysOff clockNow params)
      (toString params.messageCount ++ " messages") ∧
    (∀ p, params.archivePath = some p → p ≠ "" →
      containsStr (createDropPlaceholder sysOff clockNow params) p) ∧
    (params.archivePath = none →
      dropLines sysOff clockNow params =
        ["[Earlier conversation archived at " ++
            formatDateStamp sysOff (params.timestamp.getD clockNow) none ++
            " " ++
            formatTimeStamp sysOff (params.timestamp.getD clockNow) none ++
            "]",
         toString params.messageCount ++
            " messages moved to memory for RAG retrieval.",
         "Use memory_search to retrieve past context if needed."]) := by
  have hsplit : ∃ mid : String,
      createDropPlaceholder sysOff clockNow params =
        ("[Earlier conversation archived at " ++
            formatDateStamp sysOff (params.timestamp.getD clockNow) none ++
            " " ++
            formatTimeStamp sysOff (params.timestamp.getD clockNow) none ++
            "]") ++ "\n" ++
        ((toString params.messageCount ++
            " messages moved to memory for RAG retrieval.") ++ "\n" ++
          (mid ++ "Use memory_search to retrieve past context if needed.")) ∧
      (∀ p, params.archivePath = some p → p ≠ "" →
        mid = "Archive: " ++ p ++ "\n") := by
    unfold createDropPlaceholder dropLines
    rcases params.archivePath with _ | p
    · refine ⟨"", ?_, ?_⟩
      · show String.intercalate "\n" [_, _, _] = _
        rw [intercalate_cons_cons, intercalate_cons_cons]
        rw [show ∀ a : String, String.intercalate "\n" [a] = a from
          fun a => rfl]
        simp only [String.append_assoc, String.empty_append]
      · intro p hp
        cases hp
    · by_cases hp : p = ""
      · refine ⟨"", ?_, ?_⟩
        · show String.intercalate "\n" ([_, _] ++ (if p = ""
            then [] else _) ++ [_]) = _
          rw [if_pos hp]
          show String.intercalate "\n" [_, _, _] = _
          rw [intercalate_cons_cons, intercalate_cons_cons]
          rw [show ∀ a : String, String.intercalate "\n" [a] = a from
            fun a => rfl]
          simp only [String.append_assoc, String.empty_append]
        · intro q hq hqne
          cases hq
          exact absurd hp hqne
      · refine ⟨"Archive: " ++ p ++ "\n", ?_, ?_⟩
        · show String.intercalate "\n" ([_, _] ++ (if p = ""
            then [] else _) ++ [_]) = _
          rw [if_neg hp]
          show String.intercalate "\n" [_, _, _, _] = _
          rw [intercalate_cons_cons, intercalate_cons_cons,
            intercalate_cons_cons]
          rw [show ∀ a : String, String.intercalate "\n" [a] = a from
            fun a => rfl]
        · intro q hq _
          cases hq
          rfl
  obtain ⟨mid, hout, hmid⟩ := hsplit
  refine ⟨?_, ?_, ?_, ?_, ?_, ?_⟩
  · refine ⟨("[Earlier conversation archived at " ++
        formatDateStamp sysOff (params.timestamp.getD clockNow) none ++
        " " ++
        formatTimeStamp sysOff (params.timestamp.getD clockNow) none ++
        "]") ++ "\n" ++
      ((toString params.messageCount ++
          " messages moved to memory for RAG retrieval.") ++ "\n" ++
        (mid ++ "Use ")),
      " to retrieve past context if needed.", ?_⟩
    rw [hout,
      show ("Use memory_search to retrieve past context if needed." :
          String) =
        "Use " ++ "memory_search" ++
          " to retrieve past context if needed." from rfl]
    simp only [String.append_assoc]
  · refine ⟨"[Earlier conversation archived at ",
      " " ++ formatTimeStamp sysOff (params.timestamp.getD clockNow) none ++
        "]" ++ "\n" ++
      ((toString params.messageCount ++
          " messages moved to memory for RAG retrieval.") ++ "\n" ++
        (mid ++ "Use memory_search to retrieve past context if needed.")),
      ?_⟩
    rw [hout]
    simp only [String.append_assoc]
  · refine ⟨(civilFromDays ((params.timestamp.getD clockNow +
        sysOff * 60000) / 86400000)).1,
      (civilFromDays ((params.timestamp.getD clockNow +
        sysOff * 60000) / 86400000)).2.1,
      (civilFromDays ((params.timestamp.getD clockNow +
        sysOff * 60000) / 86400000)).2.2, rfl, ?_⟩
    have hz0 : 0 ≤ (params.timestamp.getD clockNow + sysOff * 60000) /
        86400000 := by omega
    have hz1 : (params.timestamp.getD clockNow + sysOff * 60000) /
        86400000 ≤ 2932896 := by omega
    have hb := civilFromDays_bounds _ hz0 hz1
    exact ⟨hb.1, hb.2.1, hb.2.2.1, hb.2.2.2.1, hb.2.2.2.2.1, hb.2.2.2.2.2⟩
  · refine ⟨("[Earlier conversation archived at " ++
        formatDateStamp sysOff (params.timestamp.getD clockNow) none ++
        " " ++
        formatTimeStamp sysOff (params.timestamp.getD clockNow) none ++
        "]") ++ "\n",
      " moved to memory for RAG retrieval." ++ "\n" ++
        (mid ++ "Use memory_search to retrieve past context if needed."),
      ?_⟩
    rw [hout,
      show (" messages moved to memory for RAG retrieval." : String) =
        " messages" ++ " moved to memory for RAG retrieval." from rfl]
    simp only [String.append_assoc]
  · intro p hp hpne
    refine ⟨("[Earlier conversation archived at " ++
        formatDateStamp sysOff (params.timestamp.getD clockNow) none ++
        " " ++
        formatTimeStamp sysOff (params.timestamp.getD clockNow) none ++
        "]") ++ "\n" ++
      ((toString params.messageCount ++
          " messages moved to memory for RAG retrieval.") ++ "\n" ++
        "Archive: "),
      "\n" ++ "Use memory_search to retrieve past context if needed.", ?_⟩
    rw [hout, hmid p hp hpne]
    simp only [String.append_assoc]
  · intro hap
    unfold dropLines
    rw [hap]
    simp

/-- Witness for C9: a placeholder for 12 messages with a supplied archive
path contains `memory_search` and the path verbatim. -/
theorem createDropPlaceholder_contents_witness :
    containsStr (createDropPlaceholder 0 0
      { messageCount := 12, archivePath := some "/ws/memory/1970-01-01.md" })
      "memory_search" ∧
    containsStr (createDropPlaceholder 0 0
      { messageCount := 12, archivePath := some "/ws/memory/1970-01-01.md" })
      "/ws/memory/1970-01-01.md" := by
  have h := createDropPlaceholder_contents 0 0
    { messageCount := 12, archivePath := some "/ws/memory/1970-01-01.md" }
    (by decide) (by decide)
  exact ⟨h.1, h.2.2.2.2.1 _ rfl (by decide)⟩

/-- C1 (divergence): `archiveMessagesToMemory` computes the archive file's
date stamp in the explicit `timezone` parameter, but the block's
`Archived at` line via `formatMessagesAsMarkdown`, which passes no timezone
and therefore uses the system timezone.  At system timezone UTC, explicit
timezone UTC+9 (offset 540) and timestamp 82800000 ms (1970-01-01T23:00:00Z)
the file is named for 1970-01-02 while the appended block says
`Archived at: 1970-01-01 23:00:00` — the two disagree, against the spec's
"in the same timezone". -/
theorem archive_timezone_divergence :
    formatDateStamp 0 82800000 (some 540) = "1970-01-02" ∧
    formatDateStamp 0 82800000 none = "1970-01-01" ∧
    (archiveMessagesToMemory 0 0
      { messages := [], workspaceDir := "/ws", timestamp := some 82800000,
        timezone := some 540 } (fun _ => "")).2.archivePath =
      "/ws/memory/1970-01-02.md" ∧
    "**Archived at:** 1970-01-01 23:00:00" ∈
      formatLines 0 [] none 82800000 := by
  refine ⟨by decide, by decide, by decide, by decide⟩

end OpenClaw
